import Mathlib

/-!
# Verification of the UnrollForge orchestration/state engine

Shallow embedding of the state-tracking and orchestration code of the
`uf` repository, together with theorems settling the specification
claims about it.

The embedding covers:

* `DocumentState.update_heading_stack` and its heading parser
  (`src/uf/lib/UnrollForge/DocumentProcessor.py`, lines 61-68);
* `DocumentProcessor.run_basic` / `run_refine` and
  `_analyze_page_structure` (same file, lines 95-181), with the LLM
  backend, image reading and the JSON cache as explicit oracles/stores;
* `FileManager.write_json` (`src/uf/lib/UnrollForge/FileManager.py`,
  lines 50-53), both at value level and as a trace of primitive
  file-system operations (for the atomicity question);
* the legacy phase-1 component loop and phase-2
  `reassemble_components` (`src/legacy/src/process_pages_v3_phase{1,2}.py`).

Python `Optional[str]` values tested with `if x:` are modelled as
`Option String` run through `truthy`, which maps both `none` and the
empty string to `none` (Python truthiness).
-/

namespace UF

/-! ## Heading stack (`DocumentState.update_heading_stack`) -/

/-- A heading-context entry: `{"level": level, "title": title}`. -/
structure Heading where
  level : Nat
  title : String
deriving DecidableEq, Repr

/-- The Python `\s` whitespace class (space, tab, newline, CR, VT, FF). -/
def isPySpace (c : Char) : Bool :=
  c = ' ' || c = '\t' || c = '\n' || c = '\r' || c = '\x0b' || c = '\x0c'

/-- Python `str.strip()`: remove leading and trailing whitespace. -/
def pyStrip (s : String) : String :=
  String.mk (((s.data.dropWhile isPySpace).reverse.dropWhile isPySpace).reverse)

/-- One line of the `MULTILINE` regex `^(#+)\s+(.*)` followed by
`title.strip()` (DocumentProcessor.py line 62/65): a run of one or more
`#` characters, at least one whitespace character, and the stripped rest
of the line; `level` is the length of the `#` run. -/
def parseHeadingLine (line : String) : Option Heading :=
  let marks := line.data.takeWhile (fun c => c = '#')
  let rest := line.data.dropWhile (fun c => c = '#')
  match rest with
  | [] => none
  | c :: _ =>
    if marks.length ≠ 0 ∧ isPySpace c then
      some ⟨marks.length, pyStrip (String.mk rest)⟩
    else
      none

/-- Split a character list at newline characters (the line structure the
`MULTILINE` regex scan works over). Defined by structural recursion so
that it reduces inside the kernel. -/
def splitLinesAux : List Char → List Char → List String
  | [], acc => [String.mk acc.reverse]
  | c :: cs, acc =>
    if c = '\n' then String.mk acc.reverse :: splitLinesAux cs []
    else splitLinesAux cs (c :: acc)

/-- The lines of a string. -/
def splitLines (s : String) : List String := splitLinesAux s.data []

/-- All heading lines of the Markdown of a page, in document order: the
`MULTILINE` `findall` scan of the heading regex (a run of hash marks,
whitespace, rest of line) over the content. -/
def findHeadings (markdown : String) : List Heading :=
  (splitLines markdown).filterMap parseHeadingLine

/-- The body of the `for heading_marks, title in headings` loop
(DocumentProcessor.py lines 64-67): `while stack and
stack[-1]["level"] >= level: stack.pop()`, then `stack.append(new_heading)`.
The top of the stack is the last list element, so the while-loop is a
drop-from-the-right while the level of the last entry is `≥ h.level`. -/
def pushHeading (stack : List Heading) (h : Heading) : List Heading :=
  ((stack.reverse).dropWhile (fun e => h.level ≤ e.level)).reverse ++ [h]

/-- Model of `DocumentState.update_heading_stack` (DocumentProcessor.py
lines 61-68): fold `pushHeading` over the headings of the page in
document order.
(When no heading is found the code returns early with the stack
unchanged, which coincides with folding over the empty list.) -/
def update_heading_stack (stack : List Heading) (markdown : String) : List Heading :=
  (findHeadings markdown).foldl pushHeading stack

/-- The HeadingStack invariant of the spec: levels strictly increase
from first (bottom) to last (top) entry. -/
def HeadingSorted (s : List Heading) : Prop :=
  s.Pairwise (fun a b => a.level < b.level)

instance (s : List Heading) : Decidable (HeadingSorted s) := by
  unfold HeadingSorted
  infer_instance

/-- On a strictly descending list, dropping the prefix of entries with
level `≥ l` is the same as filtering out every entry with level `≥ l`. -/
theorem dropWhile_desc_eq_filter (l : Nat) :
    ∀ xs : List Heading, xs.Pairwise (fun a b => b.level < a.level) →
      xs.dropWhile (fun e => l ≤ e.level) = xs.filter (fun e => e.level < l) := by
  intro xs
  induction xs with
  | nil => intro _; rfl
  | cons a xs ih =>
    intro hp
    rcases List.pairwise_cons.mp hp with ⟨hall, htl⟩
    by_cases hla : l ≤ a.level
    · have h1 : ¬ (a.level < l) := not_lt.mpr hla
      simp only [List.dropWhile_cons, List.filter_cons]
      simp [hla, h1, ih htl]
    · have h1 : a.level < l := not_le.mp hla
      have hfilter : xs.filter (fun e => decide (e.level < l)) = xs := by
        apply List.filter_eq_self.mpr
        intro b hb
        exact decide_eq_true (lt_trans (hall b hb) h1)
      simp only [List.dropWhile_cons, List.filter_cons]
      simp [hla, h1, hfilter]

/-- On a sorted (strictly increasing) stack, the pop-then-append step
keeps exactly the entries of level `< h.level` and appends `h`. -/
theorem pushHeading_eq_filter (stack : List Heading) (h : Heading)
    (hs : HeadingSorted stack) :
    pushHeading stack h = stack.filter (fun e => e.level < h.level) ++ [h] := by
  unfold pushHeading
  have hrev : stack.reverse.Pairwise (fun a b => b.level < a.level) :=
    (List.pairwise_reverse).mpr hs
  rw [dropWhile_desc_eq_filter h.level stack.reverse hrev]
  rw [← List.filter_reverse, List.reverse_reverse]

/-- The operation `pushHeading` preserves the sortedness invariant. -/
theorem pushHeading_sorted (stack : List Heading) (h : Heading)
    (hs : HeadingSorted stack) : HeadingSorted (pushHeading stack h) := by
  rw [pushHeading_eq_filter stack h hs]
  unfold HeadingSorted
  apply List.pairwise_append.mpr
  refine ⟨List.Pairwise.filter _ hs, List.pairwise_singleton _ _, ?_⟩
  intro a ha b hb
  rcases List.mem_filter.mp ha with ⟨_, hlt⟩
  rcases List.mem_singleton.mp hb with rfl
  exact of_decide_eq_true hlt

/-- Folding any heading sequence preserves the sortedness invariant. -/
theorem foldl_pushHeading_sorted (hs : List Heading) :
    ∀ stack : List Heading, HeadingSorted stack →
      HeadingSorted (hs.foldl pushHeading stack) := by
  induction hs with
  | nil => intro stack h; exact h
  | cons a hs ih =>
    intro stack h
    exact ih _ (pushHeading_sorted stack a h)

/-- The operation `update_heading_stack` preserves the sortedness
invariant. -/
theorem update_heading_stack_sorted (stack : List Heading) (md : String)
    (h : HeadingSorted stack) : HeadingSorted (update_heading_stack stack md) :=
  foldl_pushHeading_sorted _ stack h

/-- C1: on any sorted heading stack, applying a heading of level `l` and
title `t` first pops every stack entry whose level is `≥ l` (keeping
exactly the entries of level `< l`, in order) and then appends
`{l, t}`; in particular the stack `[{1,"A"},{2,"B"},{3,"C"}]` updated
with the level-2 heading `"D"` (the Markdown line `## D`) becomes
`[{1,"A"},{2,"D"}]`. -/
theorem C1_update_heading_stack_pop_ge_then_append
    (stack : List Heading) (l : Nat) (t : String) (hs : HeadingSorted stack) :
    pushHeading stack ⟨l, t⟩ = stack.filter (fun e => e.level < l) ++ [⟨l, t⟩]
    ∧ update_heading_stack [⟨1, "A"⟩, ⟨2, "B"⟩, ⟨3, "C"⟩] "## D"
        = [⟨1, "A"⟩, ⟨2, "D"⟩] := by
  refine ⟨pushHeading_eq_filter stack ⟨l, t⟩ hs, ?_⟩
  decide

/-- Witness for C1 at the concrete example stack of the spec. -/
theorem C1_witness :
    HeadingSorted [⟨1, "A"⟩, ⟨2, "B"⟩, ⟨3, "C"⟩]
    ∧ pushHeading [⟨1, "A"⟩, ⟨2, "B"⟩, ⟨3, "C"⟩] ⟨2, "D"⟩
        = [(⟨1, "A"⟩ : Heading), ⟨2, "B"⟩, ⟨3, "C"⟩].filter (fun e => e.level < 2)
          ++ [⟨2, "D"⟩] := by
  have h : HeadingSorted [⟨1, "A"⟩, ⟨2, "B"⟩, ⟨3, "C"⟩] := by decide
  exact ⟨h, (C1_update_heading_stack_pop_ge_then_append _ 2 "D" h).1⟩

/-- C5: starting from the empty stack, after any sequence of
`update_heading_stack` applications the levels of the stack strictly
increase from first to last entry, and in particular contain no
duplicate level. -/
theorem C5_heading_stack_invariant (mds : List String) :
    (mds.foldl update_heading_stack []).Pairwise (fun a b => a.level < b.level)
    ∧ ((mds.foldl update_heading_stack []).map Heading.level).Nodup := by
  have hsorted : HeadingSorted (mds.foldl update_heading_stack []) := by
    have : ∀ s : List Heading, HeadingSorted s →
        HeadingSorted (mds.foldl update_heading_stack s) := by
      induction mds with
      | nil => intro s h; exact h
      | cons m ms ih =>
        intro s h
        exact ih _ (update_heading_stack_sorted s m h)
    exact this [] List.Pairwise.nil
  refine ⟨hsorted, ?_⟩
  have hmap : ((mds.foldl update_heading_stack []).map Heading.level).Pairwise (· < ·) :=
    List.pairwise_map.mpr hsorted
  exact List.Pairwise.imp (fun h => Nat.ne_of_lt h) hmap

/-! ## Prompt text constants (DocumentProcessor.py lines 8-42, 81-87)

The claims never inspect prompt contents; the constants are carried so
that the orchestrator definitions build the same prompt values the
source does (up to the incidental whitespace of Python triple-quoted
strings). -/

def SYSTEM_PROMPT : String :=
  "\nYou are an expert digital archivist specializing in mathematical and scientific texts. Your task is to perform high-fidelity Optical Character Recognition (OCR) and document layout analysis, converting physical pages into perfectly structured Markdown documents with accurate LaTeX formatting.\n"

/-- Module-level `PERFECT_EXAMPLE_MARKDOWN` (used by `run_refine`). -/
def PERFECT_EXAMPLE_MARKDOWN : String :=
  "\n### Example Inline Mathematical Formula\n\nThis is an example of an inline mathematical formula: $E=mc^2$.\n\n### Exapmle Block Mathematical Formula\n\nThis is an example of a block mathematical formula:\n```math\n\\int_0^1 x^2 \\, dx = \\frac{1}{3}\n```\n\n### Example of a Table Content\n\n| Header 1 | Header 2 | Header 3 |\n|----------|----------|----------|\n| Row 1 Col 1 | Row 1 Col 2 | Row 1 Col 3 |\n| Row 2 Col 1 | Row 2 Col 2 | Row 2 Col 3 |\n\n### Example of a Figure Caption\n![Example Figure](placeholder.png)\n\n**This is a placeholder for an image caption. The actual image will be processed and inserted later.**\n"

/-- Class-level `DocumentProcessor.PERFECT_EXAMPLE_MARKDOWN` (used by
`run_basic`). -/
def DocumentProcessor_PERFECT_EXAMPLE_MARKDOWN : String :=
  "\n...as shown in the equation:\n\n$$ \\sum_\x7bi=0\x7d^\x7bn\x7d i = \\frac\x7bn(n+1)\x7d\x7b2\x7d $$\n\nThis is followed by more text.\n"

/-- Model of `BASIC_PROMPT.format(a, b, c)` (DocumentProcessor.py lines
11-17). -/
def BASIC_PROMPT_format (a b c : String) : String :=
  a ++ "\n" ++ b ++
  "\n\nYour task is to transcribe the provided page into a clean Markdown document with perfect LaTeX formatting.\n\nHere is an example of the quality and format require:\n\n--- EXAMPLE START ---\n\n"
  ++ c ++ "\n\n--- EXAMPLE END ---\n\n"

/-- The f-string `analysis_prompt` of `_analyze_page_structure`
(DocumentProcessor.py lines 107-115). -/
def analysisPrompt (context_prompt : String) : String :=
  "\n        " ++ SYSTEM_PROMPT ++ "\n        " ++ context_prompt ++
  "\n        Analyze the layout of this page by following these steps: \n        1. **Overall Layout**: First, identify the overall layout. Is it single-column, two-colmun, or something more complex?\n        2. **Component Identification**: Second, locate and identify all distinct components: headers, footers, main text body, figures, tables, and most importantly, mathematical formula blocks.\n        3. **Challenge Assessment**: Third, note any potential challenges for transcription, such as small font sizes, comples nested formulas, or unusual text flow.\n        Provide your analysis as a concise JSON object, forcusing only on the structural facts.\n"

/-- The f-string `refined_prompt` of `run_refine` (lines 165-177). Note
that the source writes `\x7b\x7banalysis_text\x7d\x7d` inside an f-string, so the
literal text `\x7banalysis_text\x7d` ends up in the prompt; the computed
analysis text itself is not interpolated. -/
def refinedPrompt (context_prompt : String) : String :=
  SYSTEM_PROMPT ++ "\n" ++ context_prompt ++
  "\nYou will perform a highly accurate transcription of the provided page.\nFirst, study this example:\n--- EXAMPLE START ---\n"
  ++ PERFECT_EXAMPLE_MARKDOWN ++
  "\n--- END EXAMPLE ---\nNext, study this analysis:\n--- ANALYSIS ---\n\x7banalysis_text\x7d\n--- END ANALYSIS ---\nConsidering both, transcribe the entire page.\n"

/-! ## DocumentState and the orchestrator environment -/

/-- The persisted document state: `\x7b"last_processed_page": ...,
"heading_context_stack": [...]\x7d`. -/
structure DocState where
  last_processed_page : Option String
  heading_context_stack : List Heading
deriving DecidableEq, Repr

/-- Python truthiness of an `Optional[str]`: both `None` and the empty
string are falsy (`if not x: ...`). -/
def truthy : Option String → Option String
  | none => none
  | some s => if s = "" then none else some s

/-- External collaborators of the orchestrator: the cache directory
setting, `FileManager.read_image_as_base64` (`None` on an unreadable
image) and `LLMClient.invoke prompt b64_image` (`None` on a failed
call). -/
structure Env where
  cache_dir : String
  read_image_as_base64 : String → Option String
  invoke : String → String → Option String

/-- The JSON-cache store: path ↦ parsed JSON object (an association
list of string fields), `none` when the file is absent or unreadable
(`FileManager.read_json`). -/
abbrev Cache := String → Option (List (String × String))

/-- Model of `FileManager.read_json` at value level. -/
def read_json (cache : Cache) (file_path : String) : Option (List (String × String)) :=
  cache file_path

/-- Model of `FileManager.write_json` at value level (see
`write_json_ops` below for the operation-trace view of the same lines
50-53). -/
def write_json (cache : Cache) (file_path : String) (data : List (String × String)) : Cache :=
  fun q => if q = file_path then some data else cache q

/-- Model of `os.path.splitext(s)[0]`: everything before the last dot, unless
the dot only has dots before it (then the name is returned whole). -/
def splitext_stem (s : String) : String :=
  let cs := s.data
  let extLen := (cs.reverse.takeWhile (fun c => c ≠ '.')).length
  if extLen = cs.length then s
  else
    let stem := cs.take (cs.length - extLen - 1)
    if stem.all (fun c => c = '.') then s else String.mk stem

/-- Model of `FileManager.get_cache_path`: `os.path.join(cache_dir,
splitext(filename)[0] + ".json")`. -/
def get_cache_path (env : Env) (filename : String) : String :=
  env.cache_dir ++ "/" ++ splitext_stem filename ++ ".json"

/-- Model of `DocumentState.get_context_prompt` (DocumentProcessor.py
lines 69-73). -/
def get_context_prompt (st : DocState) : String × Nat :=
  match st.heading_context_stack with
  | [] =>
    ("\n--- DOCUMENT CONTEXT ---\n...\nNo current context (This is likely the beginning of the document).\n--- END DOCUMENT CONTEXT ---\n", 0)
  | h :: t =>
    let path_str := String.intercalate " > "
      ((h :: t).map (fun e => String.mk (List.replicate e.level '#') ++ " " ++ e.title))
    let depth := ((h :: t).getLast (List.cons_ne_nil h t)).level
    ("\n--- DOCUMENT CONTEXT ---\n...\nCurrent Path: " ++ path_str ++
       "\nCurrent Heading Depth: " ++ toString depth ++ "\n--- END DOCUMENT CONTEXT ---\n",
     depth)

/-! ## `DocumentProcessor._analyze_page_structure` (lines 95-120)

Returns the analysis text, the number of `LLMClient.invoke` calls
issued, and the cache store after the call. -/

/-- The cache-miss path of `_analyze_page_structure` (lines 103-120):
read the image (`None` → give up without calling the backend), invoke
the backend once, and cache the result when it is truthy. -/
def analyze_page_structure_miss (env : Env) (cache : Cache)
    (filename context_prompt : String) : Option String × Nat × Cache :=
  match truthy (env.read_image_as_base64 filename) with
  | none => (none, 0, cache)
  | some b64 =>
    let analysis_text := env.invoke (analysisPrompt context_prompt) b64
    match truthy analysis_text with
    | some t =>
      (analysis_text, 1, write_json cache (get_cache_path env filename) [("analysis_text", t)])
    | none => (analysis_text, 1, cache)

/-- Model of `DocumentProcessor._analyze_page_structure` (lines 95-120): a
readable cache record with an `"analysis_text"` field short-circuits
to the cached payload; otherwise the miss path runs. -/
def analyze_page_structure (env : Env) (cache : Cache)
    (filename context_prompt : String) : Option String × Nat × Cache :=
  match read_json cache (get_cache_path env filename) with
  | some cached_data =>
    if !cached_data.isEmpty && (List.lookup "analysis_text" cached_data).isSome then
      (List.lookup "analysis_text" cached_data, 0, cache)
    else
      analyze_page_structure_miss env cache filename context_prompt
  | none => analyze_page_structure_miss env cache filename context_prompt

/-! ## `DocumentProcessor.run_basic` (lines 122-148) -/

/-- What happened to one page of the basic-mode batch. A committed page
records the written Markdown and the `DocumentState` that was saved for
it (after `update_heading_stack` and `set_last_processed_page`). -/
inductive PageResult where
  | skippedNoImage : PageResult
  | committed : String → DocState → PageResult
  | failedTranscription : PageResult
deriving DecidableEq, Repr

/-- The `for filename in files_to_run` loop of `run_basic` (lines
133-148): an unreadable image `continue`s to the next page; a truthy
transcription writes Markdown, updates the stack, advances the pointer
and saves; a falsy transcription `break`s the batch. Returns the final
`DocumentState` and the per-page event trace in batch order. -/
def run_basic_loop (env : Env) : List String → DocState → DocState × List (String × PageResult)
  | [], st => (st, [])
  | filename :: rest, st =>
    let context_prompt := (get_context_prompt st).1
    let basic_prompt :=
      BASIC_PROMPT_format SYSTEM_PROMPT context_prompt DocumentProcessor_PERFECT_EXAMPLE_MARKDOWN
    match truthy (env.read_image_as_base64 filename) with
    | none =>
      let r := run_basic_loop env rest st
      (r.1, (filename, PageResult.skippedNoImage) :: r.2)
    | some b64 =>
      match truthy (env.invoke basic_prompt b64) with
      | some markdown_content =>
        let st1 : DocState :=
          { last_processed_page := some filename,
            heading_context_stack :=
              update_heading_stack st.heading_context_stack markdown_content }
        let r := run_basic_loop env rest st1
        (r.1, (filename, PageResult.committed markdown_content st1) :: r.2)
      | none => (st, [(filename, PageResult.failedTranscription)])

/-- Line 127: `all_files.index(last_processed) + 1 if last_processed in
all_files else 0` (with `last_processed` possibly `None`). -/
def start_index (all_files : List String) (last_processed : Option String) : Nat :=
  match last_processed with
  | some p => if p ∈ all_files then all_files.indexOf p + 1 else 0
  | none => 0

/-- Line 130: `files_to_run = all_files[start_index:]`. -/
def files_to_run (all_files : List String) (last_processed : Option String) : List String :=
  all_files.drop (start_index all_files last_processed)

/-- Model of `DocumentProcessor.run_basic` (lines 122-148). -/
def run_basic (env : Env) (all_files : List String) (st : DocState) :
    DocState × List (String × PageResult) :=
  run_basic_loop env (files_to_run all_files st.last_processed_page) st

/-! ## `DocumentProcessor.run_refine` (lines 150-181) -/

/-- Model of `run_refine`: per target page, analyze (cache-checked),
read the image, invoke the refined transcription, and write Markdown
when truthy; every failure `continue`s with the next target. Returns
the `DocumentState` of the orchestrator after the run, the cache store, and the
(page, markdown) writes in order. -/
def run_refine (env : Env) (refine_files : List String) (st : DocState) (cache : Cache) :
    DocState × Cache × List (String × String) :=
  match refine_files with
  | [] => (st, cache, [])
  | filename :: rest =>
    let context_prompt := (get_context_prompt st).1
    let a := analyze_page_structure env cache filename context_prompt
    let cache1 := a.2.2
    match truthy a.1 with
    | none => run_refine env rest st cache1
    | some _analysis =>
      match truthy (env.read_image_as_base64 filename) with
      | none => run_refine env rest st cache1
      | some b64 =>
        match truthy (env.invoke (refinedPrompt context_prompt) b64) with
        | some markdown_content =>
          let r := run_refine env rest st cache1
          (r.1, r.2.1, (filename, markdown_content) :: r.2.2)
        | none => run_refine env rest st cache1

/-! ## Concrete environments used by closed statements -/

/-- An environment where every image reads and every transcription
returns the markdown `"MD"`. -/
def demoEnvOk : Env :=
  { cache_dir := "cache",
    read_image_as_base64 := fun _ => some "IMG",
    invoke := fun _ _ => some "MD" }

/-- An environment where the image of page `p1.jpg` cannot be read and every
transcription succeeds. -/
def c3Env : Env :=
  { cache_dir := "cache",
    read_image_as_base64 := fun f => if f = "p1.jpg" then none else some "IMG",
    invoke := fun _ _ => some "MD" }

/-- An environment where the transcription call for page `q2.jpg` fails and
everything else succeeds. -/
def c3FailEnv : Env :=
  { cache_dir := "cache",
    read_image_as_base64 := fun f => if f = "q2.jpg" then some "BAD" else some "IMG",
    invoke := fun _ b64 => if b64 = "BAD" then none else some "MD" }

/-- The fresh document state (empty defaults). -/
def initialState : DocState :=
  { last_processed_page := none, heading_context_stack := [] }

/-- C2: basic mode starts at the index immediately after
`last_processed_page` when it occurs in the page list and at index 0
when it is absent or unknown; concretely, with
`last_processed_page = "page-004.jpg"` and the four-page list of the spec,
the first page processed (first event of the batch trace) is
`"page-005.jpg"`. -/
theorem C2_resume_after_last_processed (all_files : List String) (p : String) :
    (p ∈ all_files →
      files_to_run all_files (some p) = all_files.drop (all_files.indexOf p + 1))
    ∧ (p ∉ all_files → files_to_run all_files (some p) = all_files)
    ∧ files_to_run all_files none = all_files
    ∧ (run_basic demoEnvOk ["page-003.jpg", "page-004.jpg", "page-005.jpg", "page-006.jpg"]
          { last_processed_page := some "page-004.jpg", heading_context_stack := [] }).2.head?
        = some ("page-005.jpg", PageResult.committed "MD"
            { last_processed_page := some "page-005.jpg", heading_context_stack := [] }) := by
  refine ⟨?_, ?_, ?_, ?_⟩
  · intro h
    simp [files_to_run, start_index, h]
  · intro h
    simp [files_to_run, start_index, h]
  · rfl
  · decide

/-- Witness for C2 with the membership hypotheses discharged. -/
theorem C2_witness :
    files_to_run ["a.jpg", "b.jpg"] (some "a.jpg")
      = ["a.jpg", "b.jpg"].drop (["a.jpg", "b.jpg"].indexOf "a.jpg" + 1)
    ∧ files_to_run ["a.jpg"] (some "z.jpg") = ["a.jpg"] :=
  ⟨(C2_resume_after_last_processed ["a.jpg", "b.jpg"] "a.jpg").1 (by decide),
   (C2_resume_after_last_processed ["a.jpg"] "z.jpg").2.1 (by decide)⟩

/-- C3 counterexample: in basic mode, page `p1.jpg` fails (its image
cannot be read), yet the later page `p2.jpg` is still processed and
committed — the batch is not stopped by this page failure. -/
theorem C3_counterexample :
    (run_basic c3Env ["p1.jpg", "p2.jpg"] initialState).2
      = [("p1.jpg", PageResult.skippedNoImage),
         ("p2.jpg", PageResult.committed "MD"
            { last_processed_page := some "p2.jpg", heading_context_stack := [] })]
    ∧ ("p2.jpg", PageResult.committed "MD"
         { last_processed_page := some "p2.jpg", heading_context_stack := [] })
        ∈ (run_basic c3Env ["p1.jpg", "p2.jpg"] initialState).2 := by
  refine ⟨by decide, by decide⟩

/-- In the basic-mode batch trace, a `failedTranscription` event is
always the last event: the `break` stops the remaining batch. -/
theorem run_basic_loop_failed_is_last (env : Env) :
    ∀ (files : List String) (st : DocState) (pre : List (String × PageResult))
      (f : String) (post : List (String × PageResult)),
      (run_basic_loop env files st).2 = pre ++ (f, PageResult.failedTranscription) :: post →
      post = [] := by
  intro files
  induction files with
  | nil =>
    intro st pre f post h
    simp [run_basic_loop] at h
  | cons g rest ih =>
    intro st pre f post h
    rw [run_basic_loop] at h
    split at h
    · dsimp only at h
      cases pre with
      | nil => simp at h
      | cons q pre' =>
        simp only [List.cons_append, List.cons.injEq] at h
        exact ih st pre' f post h.2
    · split at h
      · dsimp only at h
        cases pre with
        | nil => simp at h
        | cons q pre' =>
          simp only [List.cons_append, List.cons.injEq] at h
          exact ih _ pre' f post h.2
      · dsimp only at h
        cases pre with
        | nil =>
          simp only [List.nil_append, List.cons.injEq] at h
          exact h.2.symm
        | cons q pre' =>
          simp only [List.cons_append, List.cons.injEq] at h
          rcases h with ⟨-, h2⟩
          cases pre' <;> simp at h2

/-- C3 amended: in basic mode a failed transcription call stops all
subsequent pages (the failure event is always the last of the batch
trace), but an image that cannot be read only skips that page — the
loop `continue`s, and the remaining pages are processed from the same
state. -/
theorem C3_amended_fail_fast (env : Env) (st : DocState) :
    (∀ (files : List String) (pre : List (String × PageResult)) (f : String)
        (post : List (String × PageResult)),
      (run_basic_loop env files st).2 = pre ++ (f, PageResult.failedTranscription) :: post →
      post = [])
    ∧ (∀ (f : String) (rest : List String), truthy (env.read_image_as_base64 f) = none →
        run_basic_loop env (f :: rest) st
          = ((run_basic_loop env rest st).1,
             (f, PageResult.skippedNoImage) :: (run_basic_loop env rest st).2)) := by
  constructor
  · intro files pre f post h
    exact run_basic_loop_failed_is_last env files st pre f post h
  · intro f rest h
    rw [run_basic_loop, h]

/-- Witness for C3 amended: a concrete batch whose second page fails
transcription; the theorem yields that nothing follows the failure. -/
theorem C3_amended_witness :
    (run_basic_loop c3FailEnv ["q1.jpg", "q2.jpg"] initialState).2
      = [("q1.jpg", PageResult.committed "MD"
            { last_processed_page := some "q1.jpg", heading_context_stack := [] })]
        ++ ("q2.jpg", PageResult.failedTranscription) :: []
    ∧ ([] : List (String × PageResult)) = [] := by
  have h : (run_basic_loop c3FailEnv ["q1.jpg", "q2.jpg"] initialState).2
      = [("q1.jpg", PageResult.committed "MD"
            { last_processed_page := some "q1.jpg", heading_context_stack := [] })]
        ++ ("q2.jpg", PageResult.failedTranscription) :: [] := by decide
  exact ⟨h, (C3_amended_fail_fast c3FailEnv initialState).1 _ _ _ _ h⟩

/-- C4: `run_refine` leaves the `DocumentState` of the orchestrator exactly
as it was — it reads the heading context but never applies
`update_heading_stack`, `set_last_processed_page` or `save`. -/
theorem C4_run_refine_preserves_state (env : Env) (refine_files : List String)
    (st : DocState) (cache : Cache) :
    (run_refine env refine_files st cache).1 = st := by
  induction refine_files generalizing cache with
  | nil => rfl
  | cons f rest ih =>
    rw [run_refine]
    split
    · exact ih _
    · split
      · exact ih _
      · split
        · exact ih _
        · exact ih _

/-- C7: a present analysis-cache entry (a readable record with an
`"analysis_text"` field) makes `_analyze_page_structure` return the
cached payload with zero backend calls and the cache unchanged. -/
theorem C7_cache_hit_short_circuits (env : Env) (cache : Cache)
    (filename context_prompt : String) (d : List (String × String)) (v : String)
    (hread : read_json cache (get_cache_path env filename) = some d)
    (hkey : List.lookup "analysis_text" d = some v) :
    analyze_page_structure env cache filename context_prompt = (some v, 0, cache) := by
  unfold analyze_page_structure
  rw [hread]
  have hd : d ≠ [] := by
    intro h
    rw [h] at hkey
    simp [List.lookup] at hkey
  simp [hkey, List.isEmpty_iff, hd]

/-- A concrete cache store holding an analysis record for
`page-001.jpg`. -/
def c7Cache : Cache :=
  fun p => if p = "cache/page-001.json" then some [("analysis_text", "CACHED")] else none

/-- An environment whose backend would be observable if it were called
(the image read fails, so the miss path would return `none`). -/
def c7Env : Env :=
  { cache_dir := "cache",
    read_image_as_base64 := fun _ => none,
    invoke := fun _ _ => some "X" }

/-- Witness for C7 at a concrete cached page. -/
theorem C7_witness :
    read_json c7Cache (get_cache_path c7Env "page-001.jpg")
      = some [("analysis_text", "CACHED")]
    ∧ analyze_page_structure c7Env c7Cache "page-001.jpg" "ctx"
      = (some "CACHED", 0, c7Cache) := by
  have h1 : read_json c7Cache (get_cache_path c7Env "page-001.jpg")
      = some [("analysis_text", "CACHED")] := by decide
  exact ⟨h1, C7_cache_hit_short_circuits _ _ _ _ _ _ h1 (by decide)⟩

/-! ## `FileManager.write_json` as a file-system operation trace

`write_json` (FileManager.py lines 50-53) is `open(file_path, "w")`
followed by `json.dump(data, f)`: a truncating open and then a write of
the serialized data. An atomic temp-write-then-replace would instead
end in a `rename`. -/

/-- Primitive file-system steps. -/
inductive FsOp where
  | truncate : String → FsOp
  | writeAll : String → String → FsOp
  | rename : String → String → FsOp
deriving DecidableEq, Repr

/-- A file system: path ↦ file contents. -/
abbrev Fs := String → Option String

/-- Effect of one primitive step. `truncate` is `open(p, "w")`;
`writeAll` appends the data to the (just-truncated) file; `rename`
moves `src` over `dst`. -/
def applyFsOp (fs : Fs) : FsOp → Fs
  | FsOp.truncate p => fun q => if q = p then some "" else fs q
  | FsOp.writeAll p d => fun q => if q = p then some ((fs p).getD "" ++ d) else fs q
  | FsOp.rename src dst => fun q => if q = dst then fs src else if q = src then none else fs q

/-- Run a trace of steps. -/
def runFsOps (fs : Fs) (ops : List FsOp) : Fs := ops.foldl applyFsOp fs

/-- The step trace of `FileManager.write_json file_path data` with the
serialized payload `data`: truncating open, then the dump. There is no
temporary file and no rename. -/
def write_json_ops (file_path : String) (data : String) : List FsOp :=
  [FsOp.truncate file_path, FsOp.writeAll file_path data]

/-- Whether a step is a rename (the replace step of an atomic
temp-write-then-replace). -/
def FsOp.isRename : FsOp → Bool
  | FsOp.rename _ _ => true
  | _ => false

/-- A disk holding an old complete state file. -/
def c6Fs : Fs := fun p => if p = "document_state.json" then some "OLD" else none

/-- C6 counterexample: interrupting `FileManager.write_json` after its
truncating open (the one-step prefix of its trace) leaves the state
file empty — neither the old complete state nor the new complete
state. Persistence is not atomic temp-write-then-replace. -/
theorem C6_counterexample :
    runFsOps c6Fs ((write_json_ops "document_state.json" "NEW").take 1) "document_state.json"
      = some ""
    ∧ ¬(runFsOps c6Fs ((write_json_ops "document_state.json" "NEW").take 1) "document_state.json"
          = some "OLD"
        ∨ runFsOps c6Fs ((write_json_ops "document_state.json" "NEW").take 1) "document_state.json"
          = some "NEW") := by
  refine ⟨by decide, by decide⟩

/-- In the basic-mode trace, the state saved for a committed page
records that page as `last_processed_page`. -/
theorem run_basic_loop_committed_saves_page (env : Env) :
    ∀ (files : List String) (st : DocState) (f md : String) (saved : DocState),
      (f, PageResult.committed md saved) ∈ (run_basic_loop env files st).2 →
      saved.last_processed_page = some f := by
  intro files
  induction files with
  | nil =>
    intro st f md saved h
    simp [run_basic_loop] at h
  | cons g rest ih =>
    intro st f md saved h
    rw [run_basic_loop] at h
    split at h
    · dsimp only at h
      rcases List.mem_cons.mp h with h1 | h1
      · simp at h1
      · exact ih st f md saved h1
    · split at h
      · dsimp only at h
        rcases List.mem_cons.mp h with h1 | h1
        · rw [Prod.mk.injEq, PageResult.committed.injEq] at h1
          rcases h1 with ⟨rfl, rfl, rfl⟩
          rfl
        · exact ih _ f md saved h1
      · dsimp only at h
        rcases List.mem_cons.mp h with h1 | h1
        · simp at h1
        · simp at h1

/-- C6 amended: after every successfully transcribed page `run_basic`
saves a state whose page identifier is that page, and the save goes
through `FileManager.write_json`, whose step trace overwrites the state
file in place: it contains no rename/replace step, and running it to
completion leaves exactly the new payload on disk. (Interrupting it
mid-trace can leave a truncated file: `C6_counterexample`.) -/
theorem C6_amended_save_overwrites_in_place (env : Env) (files : List String)
    (st : DocState) (f md : String) (saved : DocState)
    (hmem : (f, PageResult.committed md saved) ∈ (run_basic_loop env files st).2) :
    saved.last_processed_page = some f
    ∧ (∀ p d, (write_json_ops p d).all (fun op => !op.isRename) = true)
    ∧ (∀ (fs : Fs) (p d : String), runFsOps fs (write_json_ops p d) p = some d) := by
  refine ⟨run_basic_loop_committed_saves_page env files st f md saved hmem, ?_, ?_⟩
  · intro p d
    rfl
  · intro fs p d
    simp [runFsOps, write_json_ops, applyFsOp]

/-- Witness for C6 at a concrete committed one-page batch. -/
theorem C6_witness :
    ("w1.jpg", PageResult.committed "MD"
        { last_processed_page := some "w1.jpg", heading_context_stack := [] })
      ∈ (run_basic_loop demoEnvOk ["w1.jpg"] initialState).2
    ∧ (DocState.last_processed_page
        { last_processed_page := some "w1.jpg", heading_context_stack := [] })
      = some "w1.jpg" := by
  have h : ("w1.jpg", PageResult.committed "MD"
      { last_processed_page := some "w1.jpg", heading_context_stack := [] })
      ∈ (run_basic_loop demoEnvOk ["w1.jpg"] initialState).2 := by decide
  exact ⟨h, (C6_amended_save_overwrites_in_place demoEnvOk _ _ _ _ _ h).1⟩

/-! ## Legacy phase 1: component extraction and box validation
(`src/legacy/src/process_pages_v3_phase1.py` lines 156-190 and
`process_pages_v3_phase2.py` lines 137-149) -/

/-- A processed page component (`id`, `type`, `box`, `content`). -/
structure Component where
  id : String
  type : String
  box : List Int
  content : String
deriving DecidableEq, Repr

/-- One raw component record of the layout payload: the loop reads
`comp.get("type", "unknown")` and `comp.get("box", [])`, so both fields
may be absent. -/
structure RawComp where
  type_field : Option String
  box_field : Option (List Int)
deriving DecidableEq, Repr

/-- The box check of the component loop: `box = tuple(comp.get("box",
[]))` then `if not box or len(box) != 4: continue`. A box passes iff it
is non-empty and has exactly four entries. -/
def box_is_accepted (box : List Int) : Bool :=
  !(box.isEmpty || box.length ≠ 4)

/-- Two-digit zero-padded formatting, as in the Python format spec
`02d`. -/
def pad2 (n : Nat) : String :=
  if n < 10 then "0" ++ toString n else toString n

/-- The id assigned by `enumerate`: `comp_01`, `comp_02`, … (skipped
components still consume their index). -/
def comp_id_of (idx : Nat) : String := "comp_" ++ pad2 (idx + 1)

/-- Content of a figure component: the crop is persisted at a
deterministic per-page, per-id path and the content is a Markdown image
reference to it. -/
def figure_content (base_filename comp_id comp_type : String) : String :=
  "![" ++ comp_type ++ " " ++ comp_id ++ "](temp_figures/" ++ base_filename ++ "/"
    ++ comp_id ++ ".jpg)"

/-- The coordinate validation inside Pillow `Image.crop` (present since
Pillow 3.4.0), which the loop calls unguarded on every box that passed
the arity check: it raises `ValueError` when `box[2] < box[0]` (checked
first) or `box[3] < box[1]`. Modelled as the raised message (the quote
marks of the real messages are elided); `none` means the crop succeeds
— out-of-extent boxes are not errors, PIL pads them. -/
def crop_error (box : List Int) : Option String :=
  if box.getD 2 0 < box.getD 0 0 then some "Coordinate right is less than left"
  else if box.getD 3 0 < box.getD 1 0 then some "Coordinate lower is less than upper"
  else none

/-- The `for idx, comp in enumerate(...)` loop over the layout
components:
a failed box check `continue`s (dropping the component, keeping the
index); the unguarded `full_image.crop(box)` then raises on an inverted
box, and since `analyze_and_extract_components` has no handler around
the loop, that exception aborts the whole page (the `Except.error`
result, carrying the message, no components returned); otherwise a
figure becomes an image reference and anything else is sent to the OCR
capability, with falsy output replaced by `"[OCR FAILED]"`. `ocr`
stands for `call_llm`/`call_vllm` on the cropped region. -/
def process_components (ocr : RawComp → Option String) (base_filename : String) :
    Nat → List RawComp → Except String (List Component)
  | _, [] => Except.ok []
  | idx, comp :: rest =>
    let comp_id := comp_id_of idx
    let comp_type := comp.type_field.getD "unknown"
    let box := comp.box_field.getD []
    if box.isEmpty || box.length ≠ 4 then
      process_components ocr base_filename (idx + 1) rest
    else
      match crop_error box with
      | some err => Except.error err
      | none =>
        let content :=
          if comp_type = "figure" then figure_content base_filename comp_id comp_type
          else (truthy (ocr comp)).getD "[OCR FAILED]"
        match process_components ocr base_filename (idx + 1) rest with
        | Except.ok comps => Except.ok (⟨comp_id, comp_type, box, content⟩ :: comps)
        | Except.error err => Except.error err

/-- An OCR stub returning `"T"` for every region. -/
def c9Ocr : RawComp → Option String := fun _ => some "T"

/-- C9 counterexample: the box `[10,10,5,20]` violates `x_min < x_max`,
yet the explicit validation of the loop accepts it (only arity is
checked); the component is then not dropped non-fatally — the unguarded
crop raises `ValueError` and the whole page aborts, so even the later
well-formed component is never produced. -/
theorem C9_counterexample :
    box_is_accepted [10, 10, 5, 20] = true
    ∧ process_components c9Ocr "page-003" 0
        [⟨some "text_block", some [10, 10, 5, 20]⟩, ⟨some "text_block", some [0, 0, 1, 1]⟩]
      = Except.error "Coordinate right is less than left" := by
  exact ⟨by decide, by rfl⟩

/-- C9 amended: the explicit box validation checks only that the box is
present with exactly four coordinates; a box of any other arity is
dropped non-fatally, the loop continuing with the remaining components
under their enumerate indices. Coordinate ordering is not validated
there: an inverted box such as `[10,10,5,20]` passes the check and then
raises an uncaught `ValueError` inside `Image.crop`, aborting component
extraction for the whole page. A well-ordered box such as
`[10,10,20,30]` is accepted and processed; the image extent is never
checked. -/
theorem C9_amended_arity_only_validation (ocr : RawComp → Option String)
    (base_filename : String) :
    box_is_accepted [10, 10, 20, 30] = true
    ∧ box_is_accepted [10, 10, 5, 20] = true
    ∧ (∀ box : List Int, box.length ≠ 4 → box_is_accepted box = false)
    ∧ (∀ (idx : Nat) (comp : RawComp) (rest : List RawComp),
        box_is_accepted (comp.box_field.getD []) = false →
        process_components ocr base_filename idx (comp :: rest)
          = process_components ocr base_filename (idx + 1) rest)
    ∧ (∀ (idx : Nat) (comp : RawComp) (rest : List RawComp) (err : String),
        box_is_accepted (comp.box_field.getD []) = true →
        crop_error (comp.box_field.getD []) = some err →
        process_components ocr base_filename idx (comp :: rest) = Except.error err)
    ∧ process_components c9Ocr "page-003" 0 [⟨some "text_block", some [10, 10, 20, 30]⟩]
        = Except.ok [⟨"comp_01", "text_block", [10, 10, 20, 30], "T"⟩] := by
  refine ⟨by decide, by decide, ?_, ?_, ?_, by rfl⟩
  · intro box h
    simp [box_is_accepted, h]
  · intro idx comp rest h
    have h2 : ((comp.box_field.getD []).isEmpty
        || decide ((comp.box_field.getD []).length ≠ 4)) = true := by
      unfold box_is_accepted at h
      rwa [Bool.not_eq_false'] at h
    rw [process_components, if_pos h2]
  · intro idx comp rest err hacc hcrop
    have hcond : ((comp.box_field.getD []).isEmpty
        || decide ((comp.box_field.getD []).length ≠ 4)) = false := by
      unfold box_is_accepted at hacc
      rwa [Bool.not_eq_true'] at hacc
    have hne : ¬(((comp.box_field.getD []).isEmpty
        || decide ((comp.box_field.getD []).length ≠ 4)) = true) := by
      rw [hcond]
      exact Bool.false_ne_true
    rw [process_components, if_neg hne, hcrop]

/-- Witness for C9 amended: a wrong-arity box dropped non-fatally, and
the concrete inverted box aborting the page fatally. -/
theorem C9_amended_witness :
    process_components c9Ocr "page-003" 0 [⟨some "text_block", some [(3 : Int)]⟩]
      = process_components c9Ocr "page-003" 1 []
    ∧ process_components c9Ocr "page-003" 0 [⟨some "text_block", some [10, 10, 5, 20]⟩]
      = Except.error "Coordinate right is less than left" :=
  ⟨(C9_amended_arity_only_validation c9Ocr "page-003").2.2.2.1 0
     ⟨some "text_block", some [(3 : Int)]⟩ [] (by decide),
   (C9_amended_arity_only_validation c9Ocr "page-003").2.2.2.2.1 0
     ⟨some "text_block", some [10, 10, 5, 20]⟩ []
     "Coordinate right is less than left" (by decide) (by rfl)⟩

/-! ## Legacy phase 2: `reassemble_components`
(`process_pages_v3_phase2.py` lines 156-200), from the point where the
id sequence `ordered_ids` of the capability has been parsed. -/

/-- Lookup in `components_map`, the dict built by comprehension from
the component list keyed by id (line 190): a Python dict comprehension
keeps the last record for a duplicated id. -/
def components_map_lookup (comps : List Component) (comp_id : String) : Option Component :=
  comps.reverse.find? (fun c => c.id = comp_id)

/-- The `for comp_id in ordered_ids` loop (lines 193-198): a known id
appends the content of its component; an unknown id is logged (second
result) and contributes nothing. -/
def reassemble_loop (comps : List Component) : List String → List String × List String
  | [] => ([], [])
  | comp_id :: rest =>
    let r := reassemble_loop comps rest
    match components_map_lookup comps comp_id with
    | some c => (c.content :: r.1, r.2)
    | none => (r.1, comp_id :: r.2)

/-- The list `final_markdown_parts` after the loop. -/
def final_markdown_parts (comps : List Component) (ordered_ids : List String) : List String :=
  (reassemble_loop comps ordered_ids).1

/-- The unknown-id warnings emitted by the loop, in order. -/
def unknown_ids_logged (comps : List Component) (ordered_ids : List String) : List String :=
  (reassemble_loop comps ordered_ids).2

/-- Model of `reassemble_components` from the parsed id sequence on:
the blank-line join of `final_markdown_parts`. -/
def reassemble_components (comps : List Component) (ordered_ids : List String) : String :=
  String.intercalate "\n\n" (final_markdown_parts comps ordered_ids)

/-- Whether an id names a component of the page. -/
def is_known (comps : List Component) (comp_id : String) : Bool :=
  (components_map_lookup comps comp_id).isSome

/-- The content an id resolves to (`""` for unknown ids; only used at
known ids). -/
def content_of (comps : List Component) (comp_id : String) : String :=
  ((components_map_lookup comps comp_id).map Component.content).getD ""

/-- The loop keeps exactly the known returned ids (in returned order)
and logs exactly the unknown ones. -/
theorem reassemble_loop_spec (comps : List Component) :
    ∀ ordered_ids : List String,
      (reassemble_loop comps ordered_ids).1
        = (ordered_ids.filter (fun i => is_known comps i)).map (content_of comps)
      ∧ (reassemble_loop comps ordered_ids).2
        = ordered_ids.filter (fun i => !(is_known comps i)) := by
  intro ids
  induction ids with
  | nil => exact ⟨rfl, rfl⟩
  | cons i rest ih =>
    rw [reassemble_loop]
    rcases h : components_map_lookup comps i with _ | c
    · have hk : is_known comps i = false := by simp [is_known, h]
      simp [List.filter_cons, hk, ih.1, ih.2]
    · have hk : is_known comps i = true := by simp [is_known, h]
      have hc : content_of comps i = c.content := by simp [content_of, h]
      simp [List.filter_cons, hk, hc, ih.1, ih.2]

/-- C8: the final page MarkDown is the blank-line-joined concatenation
of the contents of the returned *known* ids, in the returned order —
so each returned id that names no component contributes nothing (and is
exactly what gets logged), and each component whose id is absent from
the returned sequence contributes nothing (the output depends only on
the returned ids). -/
theorem C8_reassembly_contract (comps : List Component) (ordered_ids : List String) :
    reassemble_components comps ordered_ids
      = String.intercalate "\n\n"
          ((ordered_ids.filter (fun i => is_known comps i)).map (content_of comps))
    ∧ unknown_ids_logged comps ordered_ids
      = ordered_ids.filter (fun i => !(is_known comps i)) := by
  refine ⟨?_, (reassemble_loop_spec comps ordered_ids).2⟩
  unfold reassemble_components final_markdown_parts
  rw [(reassemble_loop_spec comps ordered_ids).1]

/-- C10: reassembly performs no deduplication — every occurrence of a
known id in the returned sequence contributes one copy of the content
of its component, so a duplicated id duplicates content; concretely
a single component `"X"` returned twice yields `"X\n\nX"`. -/
theorem C10_duplicate_ids_duplicate_content (comps : List Component)
    (pre post : List String) (comp_id : String) (c : Component)
    (hlookup : components_map_lookup comps comp_id = some c) :
    final_markdown_parts comps (pre ++ comp_id :: post)
      = final_markdown_parts comps pre ++ c.content :: final_markdown_parts comps post
    ∧ reassemble_components [⟨"comp_01", "text_block", [0, 0, 1, 1], "X"⟩]
        ["comp_01", "comp_01"] = "X\n\nX" := by
  refine ⟨?_, by decide⟩
  have hk : is_known comps comp_id = true := by simp [is_known, hlookup]
  have hc : content_of comps comp_id = c.content := by simp [content_of, hlookup]
  unfold final_markdown_parts
  rw [(reassemble_loop_spec comps (pre ++ comp_id :: post)).1,
    (reassemble_loop_spec comps pre).1, (reassemble_loop_spec comps post).1,
    List.filter_append, List.map_append, List.filter_cons]
  simp [hk, hc]

/-- Witness for C10 at a concrete duplicated id. -/
theorem C10_witness :
    components_map_lookup [⟨"comp_01", "text_block", [0, 0, 1, 1], "X"⟩] "comp_01"
      = some ⟨"comp_01", "text_block", [0, 0, 1, 1], "X"⟩
    ∧ final_markdown_parts [⟨"comp_01", "text_block", [0, 0, 1, 1], "X"⟩]
          (["comp_01"] ++ "comp_01" :: [])
        = final_markdown_parts [⟨"comp_01", "text_block", [0, 0, 1, 1], "X"⟩] ["comp_01"]
          ++ "X" :: final_markdown_parts [⟨"comp_01", "text_block", [0, 0, 1, 1], "X"⟩] [] := by
  have h : components_map_lookup [⟨"comp_01", "text_block", [0, 0, 1, 1], "X"⟩] "comp_01"
      = some ⟨"comp_01", "text_block", [0, 0, 1, 1], "X"⟩ := by decide
  exact ⟨h, (C10_duplicate_ids_duplicate_content _ ["comp_01"] [] "comp_01" _ h).1⟩

end UF
